import Mathlib

/-!
Verification of `.github/scripts/check_gamefixes.py`.

The script is shallowly embedded over explicit inputs:

* filenames and directory names become `List Char` (called `Str` below), so
  that the Python string operations (`startswith`, `removeprefix`,
  `removesuffix`, `isnumeric`, `Path.stem`) have direct executable models;
* the directory tree becomes a list of `FixFile` records in traversal
  (`glob`) order, each carrying its parent-directory name, its filename,
  whether it is a symbolic link, and whether the referenced path exists;
* the three upstream HTTP endpoints become explicit response data: the bulk
  Steam catalog is the list of `appid` integers streamed from it, the Steam
  per-id fallback is a function from an id to either a parse/network error or
  the streamed `(prefix, value)` events, the GOG catalog is a function from a
  requested batch to the list of returned `id` integers, and the umu database
  is either an error or the list of streamed `umu_id` strings;
* Python `set` values become duplicate-free lists (insertion keeps the list
  `Nodup`; iteration order of a Python set is arbitrary, and the list order
  plays that role);
* a raised exception becomes an `Except.error` value, and each network stage
  additionally reports whether its persistent `HTTPSConnection` was opened
  and whether `conn.close()` was reached, plus the network requests it made.

Characters are modelled as themselves; `str.isnumeric` is modelled over
ASCII digits (the scripts' filenames are ASCII), matching `int()` parsing.
-/

/-- Python strings, as lists of characters. -/
abbrev Str := List Char

/-- `p.isPrefixOf`-style check: Python `s.startswith(p)`. -/
def pyStarts : Str → Str → Bool
  | [], _ => true
  | _ :: _, [] => false
  | p :: ps, c :: cs => p == c && pyStarts ps cs

/-- Python `s.endswith(suf)`. -/
def pyEnds (suf s : Str) : Bool :=
  pyStarts suf.reverse s.reverse

/-- Python `s.removeprefix(p)`: drops `p` only when `s` starts with it. -/
def removePre (p s : Str) : Str :=
  if pyStarts p s then s.drop p.length else s

/-- Python `s.removesuffix(suf)`: drops `suf` only when `s` ends with it. -/
def removeSuf (suf s : Str) : Str :=
  if pyEnds suf s then s.take (s.length - suf.length) else s

/-- Python `s.isnumeric()` over ASCII: nonempty and all digits. -/
def pyIsNumeric (s : Str) : Bool :=
  !s.isEmpty && s.all Char.isDigit

/-- Python `int(s)` on a digit string. -/
def pyInt (s : Str) : Nat :=
  s.foldl (fun acc c => acc * 10 + (c.toNat - 48)) 0

/-- Python `str(n)` for a nonnegative integer. -/
def strOfNat (n : Nat) : Str :=
  Nat.toDigits 10 n

/-- Python `pathlib.Path.stem`: the filename without its last suffix; a name
whose only dot is its leading character has no suffix. -/
def pathStem (s : Str) : Str :=
  match s.reverse.findIdx? (fun c => c == '.') with
  | none => s
  | some i => if i + 1 = s.length then s else s.take (s.length - 1 - i)

/-- Insertion into a Python set modelled as a duplicate-free list
(`appids.add(x)`). -/
def insertSet {α : Type} [DecidableEq α] (x : α) (l : List α) : List α :=
  if x ∈ l then l else l ++ [x]

/-- One file of the project tree: parent directory name, filename, whether the
file is a symbolic link, and whether the referenced path exists
(`module.exists()`). -/
structure FixFile where
  dir : Str
  name : Str
  isSymlink : Bool
  pathExists : Bool
deriving DecidableEq

/-- The errors the script can raise: `FileNotFoundError` and `ValueError`
variants with the data their messages carry, plus an uncaught network or
JSON-parse exception. -/
inductive CheckErr where
  | brokenLink (f : FixFile)
  | missingFile (f : FixFile)
  | invalidSteamName (f : FixFile)
  | missingUmu (f : FixFile)
  | invalidSteamId (a : Nat)
  | invalidGogIds (ids : List Str)
  | netOrParse
deriving DecidableEq

/-- A JSON value streamed by `ijson.parse`, as far as the script inspects it:
a boolean or anything else. -/
inductive JVal where
  | boolVal (b : Bool)
  | otherVal
deriving DecidableEq

/-- One `(prefix, value)` event streamed from a fallback response. -/
abbrev Event := Str × JVal

/-- The network requests a run can issue, for ordering/abortion claims. -/
inductive NetCall where
  | steamCatalog
  | steamFallback
  | gogCatalog (ids : List Str)
  | umuDb
deriving DecidableEq

instance {ε α : Type} [DecidableEq ε] [DecidableEq α] : DecidableEq (Except ε α) := fun a b =>
  match a, b with
  | Except.ok x, Except.ok y =>
    if h : x = y then isTrue (by rw [h]) else isFalse (fun hh => by cases hh; exact h rfl)
  | Except.error x, Except.error y =>
    if h : x = y then isTrue (by rw [h]) else isFalse (fun hh => by cases hh; exact h rfl)
  | Except.ok _, Except.error _ => isFalse (fun hh => by cases hh)
  | Except.error _, Except.ok _ => isFalse (fun hh => by cases hh)

/-- `root.glob('gamefixes-*/*.py')`: files whose parent directory matches
`gamefixes-*` and whose name matches `*.py`. -/
def globFixes (t : List FixFile) : List FixFile :=
  t.filter (fun f => pyStarts ("gamefixes-".toList) f.dir && pyEnds (".py".toList) f.name)

/-- `file.name.startswith(('__init__.py', 'default.py', 'winetricks-gui.py'))`:
the ignore filter shared by `check_links` and `check_filenames`.  Note the
source tests a name *prefix*, not name equality. -/
def ignoredName (n : Str) : Bool :=
  pyStarts ("__init__.py".toList) n || pyStarts ("default.py".toList) n ||
    pyStarts ("winetricks-gui.py".toList) n

/-- The `gamefixes` list comprehension of `check_links`/`check_filenames`. -/
def gamefixes (t : List FixFile) : List FixFile :=
  (globFixes t).filter (fun f => !ignoredName f.name)

/-- The scan loop of `check_links`: raise `FileNotFoundError` at the first
module that is a symbolic link whose target does not exist. -/
def checkLinksLoop : List FixFile → Except CheckErr Unit
  | [] => Except.ok ()
  | f :: fs =>
    if f.isSymlink && !f.pathExists then Except.error (CheckErr.brokenLink f)
    else checkLinksLoop fs

/-- `check_links(root)`. -/
def check_links (t : List FixFile) : Except CheckErr Unit :=
  checkLinksLoop (gamefixes t)

/-- The scan loop of `check_filenames`: per module, missing file, then
non-numeric Steam stem, then missing `umu-` prefix, in the source's branch
order. -/
def checkFilenamesLoop : List FixFile → Except CheckErr Unit
  | [] => Except.ok ()
  | f :: fs =>
    if !f.pathExists then Except.error (CheckErr.missingFile f)
    else if pyStarts ("gamefixes-steam".toList) f.dir && !(pyIsNumeric (pathStem f.name)) then
      Except.error (CheckErr.invalidSteamName f)
    else if !(pyStarts ("gamefixes-steam".toList) f.dir) && !(pyStarts ("umu-".toList) f.name) then
      Except.error (CheckErr.missingUmu f)
    else checkFilenamesLoop fs

/-- `check_filenames(root)`. -/
def check_filenames (t : List FixFile) : Except CheckErr Unit :=
  checkFilenamesLoop (gamefixes t)

/-- Steam games that are no longer on sale, but are valid IDs
(`whitelist_steam`). -/
def whitelist_steam : List Nat :=
  [231990, 4730, 105400, 321040, 12840, 7850]

/-- The id-collection loop of `check_steamfixes`: over all entries of
`gamefixes-steam`, strip `.py`, skip non-numeric ids, add `int(appid)` to the
set. -/
def steamCollectAux : List Str → List Nat → List Nat
  | [], acc => acc
  | n :: rest, acc =>
    steamCollectAux rest
      (if pyIsNumeric (removeSuf (".py".toList) n) then
        insertSet (pyInt (removeSuf (".py".toList) n)) acc
      else acc)

/-- `check_steamfixes` lines 34-41: the candidate id set of the Steam fixes
directory. -/
def steamCollect (names : List Str) : List Nat :=
  steamCollectAux names []

/-- The bulk catalog loop of `check_steamfixes`: remove each streamed `appid`
present in the set, stopping once the set is empty. -/
def steamCatalogPass : List Nat → List Nat → List Nat
  | [], appids => appids
  | obj :: rest, appids =>
    (fun appids' => if appids'.isEmpty then appids' else steamCatalogPass rest appids')
      (if obj ∈ appids then appids.erase obj else appids)

/-- Whether a streamed fallback response contains an event
`(f'\x7bappid\x7d.success', True)` with a boolean value. -/
def successFound (a : Nat) (events : List Event) : Bool :=
  events.any (fun e => e.1 == (strOfNat a ++ (".success".toList)) && e.2 == JVal.boolVal true)

/-- The per-id fallback loop of `check_steamfixes`: iterate over a snapshot
(`appids.copy()`) of the remaining ids, request each id, and remove it when
its response reports success; a network or parse failure raises out of the
loop.  First argument of the recursion is the snapshot, second the live set. -/
def steamFallbackLoop (resp : Nat → Except Unit (List Event)) :
    List Nat → List Nat → Except Unit (List Nat)
  | [], appids => Except.ok appids
  | a :: rest, appids =>
    match resp a with
    | Except.error _ => Except.error ()
    | Except.ok events =>
      (fun appids' => if appids'.isEmpty then Except.ok appids' else steamFallbackLoop resp rest appids')
        (if successFound a events then appids.erase a else appids)

/-- The final whitelist loop of `check_steamfixes` (lines 79-82): raise
`ValueError` at the first remaining id outside the whitelist.  The error
message carries that single id. -/
def steamFinalW (wl : List Nat) : List Nat → Except CheckErr Unit
  | [] => Except.ok ()
  | a :: rest =>
    if a ∈ wl then steamFinalW wl rest else Except.error (CheckErr.invalidSteamId a)

/-- The candidate ids left after the bulk catalog pass. -/
def steamRemaining (names : List Str) (catalog : List Nat) : List Nat :=
  steamCatalogPass catalog (steamCollect names)

/-- Outcome of one network-using check: the result, whether the persistent
`HTTPSConnection` was opened, whether `conn.close()` was reached, and the
network requests made. -/
structure StageResult where
  result : Except CheckErr Unit
  connOpened : Bool
  connClosed : Bool
  calls : List NetCall
deriving DecidableEq

/-- `check_steamfixes(project, url, api)`, parameterized by the module-level
whitelist.  `names` are the entries of `gamefixes-steam`, `catalog` the
streamed bulk `appid`s, `resp` the per-id fallback responses.  The fallback
connection is opened only when ids remain after the bulk pass; `conn.close()`
is a plain statement after the loop, so an exception inside the loop skips
it, while the final `ValueError` is raised after it. -/
def check_steamfixesW (wl : List Nat) (names : List Str) (catalog : List Nat)
    (resp : Nat → Except Unit (List Event)) : StageResult :=
  if (steamRemaining names catalog).isEmpty then
    ⟨steamFinalW wl (steamRemaining names catalog), false, false, [NetCall.steamCatalog]⟩
  else
    match steamFallbackLoop resp (steamRemaining names catalog) (steamRemaining names catalog) with
    | Except.error _ =>
      ⟨Except.error CheckErr.netOrParse, true, false, [NetCall.steamCatalog, NetCall.steamFallback]⟩
    | Except.ok rest =>
      ⟨steamFinalW wl rest, true, true, [NetCall.steamCatalog, NetCall.steamFallback]⟩

/-- `check_steamfixes` with the source's module-level whitelist. -/
def check_steamfixes (names : List Str) (catalog : List Nat)
    (resp : Nat → Except Unit (List Event)) : StageResult :=
  check_steamfixesW whitelist_steam names catalog resp

/-- The stripped id of one `umu-` file (`removeprefix('umu-')` then
`removesuffix('.py')`). -/
def stripId (f : Str) : Str :=
  removeSuf (".py".toList) (removePre ("umu-".toList) f)

/-- The loop body of `_batch_generator`: walk the directory entries keeping
the current set and a count; when the count reaches `size` the set is yielded
(with the entry just added) and reset, skipping the increment; the remainder
set is always yielded at the end. -/
def batchGo (size : Nat) : List Str → List Str → Nat → List (List Str)
  | [], appids, _ => [appids]
  | f :: fs, appids, count =>
    if !(pyStarts ("umu-".toList) f) then batchGo size fs appids count
    else
      (fun appids' =>
        if count = size then appids' :: batchGo size fs [] 0
        else batchGo size fs appids' (count + 1))
        (insertSet (stripId f) appids)

/-- `_batch_generator(gamefix, size)`, as the list of yielded sets. -/
def _batch_generator (files : List Str) (size : Nat) : List (List Str) :=
  batchGo size files [] 0

/-- The per-batch GOG catalog loop: remove each streamed item whose
`str(obj['id'])` is in the working set, stopping once the set is empty. -/
def gogCatalogPass : List Nat → List Str → List Str
  | [], appids => appids
  | obj :: rest, appids =>
    (fun appids' => if appids'.isEmpty then appids' else gogCatalogPass rest appids')
      (if strOfNat obj ∈ appids then appids.erase (strOfNat obj) else appids)

/-- The batch loop of `check_gogfixes` (lines 95-109): each iteration rebinds
`appids = gogids.copy()`, discarding whatever remained from the previous
batch, then runs the catalog pass on the requested batch. -/
def gogBatchLoop (gcat : List Str → List Nat) : List (List Str) → List Str → List Str
  | [], appids => appids
  | batch :: rest, _ => gogBatchLoop gcat rest (gogCatalogPass (gcat batch) batch)

/-- The Steam-filename fallback loop of `check_gogfixes` (lines 112-119):
remove ids that match some `gamefixes-steam` filename minus `.py`. -/
def gogSteamPass : List Str → List Str → List Str
  | [], appids => appids
  | n :: rest, appids =>
    (fun appids' => if appids'.isEmpty then appids' else gogSteamPass rest appids')
      (if removeSuf (".py".toList) n ∈ appids then appids.erase (removeSuf (".py".toList) n)
      else appids)

/-- The umu-database loop of `check_gogfixes` (lines 129-134): remove ids that
match some streamed `umu_id` with its literal `umu-` prefix stripped. -/
def gogUmuPass : List Str → List Str → List Str
  | [], appids => appids
  | u :: rest, appids =>
    (fun appids' => if appids'.isEmpty then appids' else gogUmuPass rest appids')
      (if removePre ("umu-".toList) u ∈ appids then appids.erase (removePre ("umu-".toList) u)
      else appids)

/-- The final check of `check_gogfixes` (lines 138-144): a nonempty remainder
raises a `ValueError` whose message carries the whole remaining set. -/
def gogFinal (appids : List Str) : Except CheckErr Unit :=
  if appids.isEmpty then Except.ok () else Except.error (CheckErr.invalidGogIds appids)

/-- The working set after the batch loop, starting from the initial empty
`appids` set of line 91. -/
def gogAfterBatches (gogNames : List Str) (gcat : List Str → List Nat) : List Str :=
  gogBatchLoop gcat (_batch_generator gogNames 50) []

/-- The working set after the guarded Steam-filename fallback. -/
def gogAfterSteam (gogNames steamNames : List Str) (gcat : List Str → List Nat) : List Str :=
  if (gogAfterBatches gogNames gcat).isEmpty then gogAfterBatches gogNames gcat
  else gogSteamPass steamNames (gogAfterBatches gogNames gcat)

/-- One GOG catalog request is issued per yielded batch (even an empty one). -/
def gogCalls (gogNames : List Str) : List NetCall :=
  (_batch_generator gogNames 50).map (fun b => NetCall.gogCatalog b)

/-- `check_gogfixes(project, url, api)`.  `gogNames` are the entries of
`gamefixes-gog`, `steamNames` those of `gamefixes-steam`, `gcat` the GOG
catalog response per requested batch, `umuResp` the umu-database response.
The umu-database connection is opened only when ids remain after the Steam
pass; `conn.close()` is a plain statement after the parse loop, so a
request/parse failure skips it, while the final `ValueError` is raised after
it. -/
def check_gogfixes (gogNames steamNames : List Str) (gcat : List Str → List Nat)
    (umuResp : Except Unit (List Str)) : StageResult :=
  if (gogAfterSteam gogNames steamNames gcat).isEmpty then
    ⟨gogFinal (gogAfterSteam gogNames steamNames gcat), false, false, gogCalls gogNames⟩
  else
    match umuResp with
    | Except.error _ =>
      ⟨Except.error CheckErr.netOrParse, true, false, gogCalls gogNames ++ [NetCall.umuDb]⟩
    | Except.ok items =>
      ⟨gogFinal (gogUmuPass items (gogAfterSteam gogNames steamNames gcat)), true, true,
        gogCalls gogNames ++ [NetCall.umuDb]⟩

/-- Outcome of a full run: final result and the network requests made, in
order. -/
structure RunResult where
  result : Except CheckErr Unit
  calls : List NetCall
deriving DecidableEq

/-- `main()`, parameterized by the whitelist: the four checks in their fixed
source order, each failure aborting the run. -/
def runAllW (wl : List Nat) (t : List FixFile) (catalog : List Nat)
    (resp : Nat → Except Unit (List Event)) (gcat : List Str → List Nat)
    (umuResp : Except Unit (List Str)) : RunResult :=
  match check_links t with
  | Except.error e => ⟨Except.error e, []⟩
  | Except.ok _ =>
    match check_filenames t with
    | Except.error e => ⟨Except.error e, []⟩
    | Except.ok _ =>
      match check_steamfixesW wl ((t.filter (fun f => f.dir = ("gamefixes-steam".toList))).map FixFile.name) catalog resp with
      | ⟨Except.error e, _, _, scalls⟩ => ⟨Except.error e, scalls⟩
      | ⟨Except.ok _, _, _, scalls⟩ =>
        (fun g => ⟨g.result, scalls ++ g.calls⟩)
          (check_gogfixes ((t.filter (fun f => f.dir = ("gamefixes-gog".toList))).map FixFile.name)
            ((t.filter (fun f => f.dir = ("gamefixes-steam".toList))).map FixFile.name) gcat umuResp)

/-- `main()` with the source's module-level whitelist. -/
def runAll (t : List FixFile) (catalog : List Nat) (resp : Nat → Except Unit (List Event))
    (gcat : List Str → List Nat) (umuResp : Except Unit (List Str)) : RunResult :=
  runAllW whitelist_steam t catalog resp gcat umuResp

/-- The module-level mutable environment of the script: the only module-level
mutable object the checks touch is the `whitelist_steam` set (the `headers`
dict is passed to requests but never read back).  A run reads the whitelist
and performs no assignment or mutating call on it, so the post-state is the
pre-state. -/
structure Globals where
  whitelist : List Nat
deriving DecidableEq

/-- A full run as a state transformer over the module-level environment. -/
def runAllG (g : Globals) (t : List FixFile) (catalog : List Nat)
    (resp : Nat → Except Unit (List Event)) (gcat : List Str → List Nat)
    (umuResp : Except Unit (List Str)) : RunResult × Globals :=
  (runAllW g.whitelist t catalog resp gcat umuResp, g)

/-- The success condition of one module in `check_filenames`, read off the
loop's branches: the path exists and the platform naming rule holds. -/
def fileOk (f : FixFile) : Bool :=
  f.pathExists &&
    (if pyStarts ("gamefixes-steam".toList) f.dir then pyIsNumeric (pathStem f.name)
     else pyStarts ("umu-".toList) f.name)

/-- The error `check_filenames` raises for an offending module, in the loop's
branch order: missing file first, then the platform rule. -/
def firstOffense (f : FixFile) : CheckErr :=
  if !f.pathExists then CheckErr.missingFile f
  else if pyStarts ("gamefixes-steam".toList) f.dir then CheckErr.invalidSteamName f
  else CheckErr.missingUmu f

/-- Modelled from claim C6's wording, for comparison with the code: every
file matching `gamefixes-*/*.py` whose name is not exactly one of
`__init__.py`, `default.py`, `winetricks-gui.py` exists and satisfies its
platform's naming rule.  (The code instead excludes by name *prefix*.) -/
def claimedFilenamesOk (t : List FixFile) : Bool :=
  (globFixes t).all (fun f =>
    if f.name = ("__init__.py".toList) ∨ f.name = ("default.py".toList) ∨
        f.name = ("winetricks-gui.py".toList) then true
    else fileOk f)

/-- The set of candidate GOG ids read off a directory listing: names of
`umu-` files with the `umu-` and `.py` affixes stripped, in listing order. -/
def strippedIds : List Str → List Str
  | [] => []
  | f :: fs =>
    if pyStarts ("umu-".toList) f then stripId f :: strippedIds fs else strippedIds fs

/-- A `gamefixes-gog` directory with 51 `umu-` files named `umu-0.py` through
`umu-50.py`. -/
def files51 : List Str :=
  (List.range 51).map (fun i => ("umu-".toList) ++ strOfNat i ++ (".py".toList))

/-- `files51` followed by one more `umu-` entry whose stripped id collides
with `umu-0.py`'s. -/
def cfiles : List Str :=
  files51 ++ [("umu-0".toList)]

/-- A tree containing a single broken symbolic link `gamefixes-gog/umu-0001.py`. -/
def brokenLinkTree : List FixFile :=
  [⟨"gamefixes-gog".toList, "umu-0001.py".toList, true, false⟩]

/-- The whitelist loop only ever cites an id outside the given whitelist. -/
theorem steamFinalW_error_not_mem (wl : List Nat) (l : List Nat) :
    ∀ a, steamFinalW wl l = Except.error (CheckErr.invalidSteamId a) → a ∉ wl := by
  induction l with
  | nil => intro a h; simp [steamFinalW] at h
  | cons b rest ih =>
    intro a h
    by_cases hb : b ∈ wl
    · rw [steamFinalW, if_pos hb] at h
      exact ih a h
    · rw [steamFinalW, if_neg hb] at h
      simp only [Except.error.injEq, CheckErr.invalidSteamId.injEq] at h
      rw [h] at hb
      exact hb

/-- When every fallback response parses, the per-id loop terminates normally. -/
theorem steamFallbackLoop_isOk (resp : Nat → Except Unit (List Event))
    (hres : ∀ a, ∃ evs, resp a = Except.ok evs) (snap : List Nat) :
    ∀ live, ∃ l, steamFallbackLoop resp snap live = Except.ok l := by
  induction snap with
  | nil => intro live; exact ⟨live, rfl⟩
  | cons a rest ih =>
    intro live
    obtain ⟨evs, hevs⟩ := hres a
    simp only [steamFallbackLoop, hevs]
    by_cases hemp : (if successFound a evs then live.erase a else live).isEmpty = true
    · exact ⟨_, if_pos hemp⟩
    · rw [if_neg hemp]
      exact ih _

/-- A broken symbolic link among the scanned modules makes the link loop
fail with a broken-link error. -/
theorem checkLinksLoop_broken (l : List FixFile)
    (hex : ∃ f ∈ l, f.isSymlink = true ∧ f.pathExists = false) :
    ∃ f, checkLinksLoop l = Except.error (CheckErr.brokenLink f)
      ∧ f.isSymlink = true ∧ f.pathExists = false := by
  induction l with
  | nil => simp at hex
  | cons g gs ih =>
    by_cases hb : g.isSymlink && !g.pathExists
    · refine ⟨g, ?_, ?_, ?_⟩
      · rw [checkLinksLoop, if_pos hb]
      · exact (Bool.and_eq_true_iff.mp hb).1
      · simpa using (Bool.and_eq_true_iff.mp hb).2
    · obtain ⟨f, hf, hs, hp⟩ := hex
      rcases List.mem_cons.mp hf with rfl | hmem
      · exfalso; apply hb; rw [hs, hp]; rfl
      · rw [checkLinksLoop, if_neg hb]
        exact ih ⟨f, hmem, hs, hp⟩

/-- Membership in the set-insertion model. -/
theorem insertSet_mem {α : Type} [DecidableEq α] (x y : α) (l : List α) :
    y ∈ insertSet x l ↔ y = x ∨ y ∈ l := by
  unfold insertSet
  split
  · rename_i hx
    constructor
    · exact fun h => Or.inr h
    · rintro (rfl | h)
      · exact hx
      · exact h
  · simp [or_comm]

/-- A candidate leaves the GOG catalog pass only when some streamed item's
decimal string equals it character for character. -/
theorem gogCatalogPass_removed (items : List Nat) :
    ∀ appids c, c ∈ appids → c ∉ gogCatalogPass items appids →
      ∃ i ∈ items, strOfNat i = c := by
  induction items with
  | nil => intro appids c hc hnc; exact absurd hc hnc
  | cons i rest ih =>
    intro appids c hc hnc
    simp only [gogCatalogPass] at hnc
    by_cases heq : strOfNat i = c
    · exact ⟨i, List.mem_cons_self i rest, heq⟩
    · have hc' : c ∈ (if strOfNat i ∈ appids then appids.erase (strOfNat i) else appids) := by
        split
        · exact (List.mem_erase_of_ne (fun hh => heq hh.symm)).mpr hc
        · exact hc
      by_cases hemp : (if strOfNat i ∈ appids then appids.erase (strOfNat i) else appids).isEmpty = true
      · rw [if_pos hemp] at hnc
        exact absurd hc' hnc
      · rw [if_neg hemp] at hnc
        obtain ⟨j, hj, hjs⟩ := ih _ c hc' hnc
        exact ⟨j, List.mem_cons_of_mem i hj, hjs⟩

/-- A candidate leaves the umu-database pass only when some streamed `umu_id`,
with a literal leading `umu-` stripped, equals it. -/
theorem gogUmuPass_removed (items : List Str) :
    ∀ appids c, c ∈ appids → c ∉ gogUmuPass items appids →
      ∃ u ∈ items, removePre ("umu-".toList) u = c := by
  induction items with
  | nil => intro appids c hc hnc; exact absurd hc hnc
  | cons u rest ih =>
    intro appids c hc hnc
    simp only [gogUmuPass] at hnc
    by_cases heq : removePre ("umu-".toList) u = c
    · exact ⟨u, List.mem_cons_self u rest, heq⟩
    · have hc' : c ∈ (if removePre ("umu-".toList) u ∈ appids then
          appids.erase (removePre ("umu-".toList) u) else appids) := by
        split
        · exact (List.mem_erase_of_ne (fun hh => heq hh.symm)).mpr hc
        · exact hc
      by_cases hemp : (if removePre ("umu-".toList) u ∈ appids then
          appids.erase (removePre ("umu-".toList) u) else appids).isEmpty = true
      · rw [if_pos hemp] at hnc
        exact absurd hc' hnc
      · rw [if_neg hemp] at hnc
        obtain ⟨v, hv, hvs⟩ := ih _ c hc' hnc
        exact ⟨v, List.mem_cons_of_mem u hv, hvs⟩

/-- The batch generator always yields at least one set. -/
theorem batchGo_ne_nil (size : Nat) (files : List Str) :
    ∀ appids count, batchGo size files appids count ≠ [] := by
  induction files with
  | nil => intro appids count; simp [batchGo]
  | cons f fs ih =>
    intro appids count
    simp only [batchGo]
    split
    · exact ih appids count
    · split
      · simp
      · exact ih _ _

/-- The members of the yielded batches are the carried-in set plus the
stripped ids of the remaining `umu-` files. -/
theorem batchGo_flatten_mem (size : Nat) (files : List Str) :
    ∀ appids count x,
      x ∈ (batchGo size files appids count).flatten ↔ x ∈ appids ∨ x ∈ strippedIds files := by
  induction files with
  | nil => intro appids count x; simp [batchGo, strippedIds]
  | cons f fs ih =>
    intro appids count x
    by_cases hu : pyStarts ("umu-".toList) f = true
    · rw [strippedIds, if_pos hu]
      simp only [batchGo, hu, Bool.not_true, Bool.false_eq_true, if_false]
      by_cases hc : count = size
      · rw [if_pos hc]
        rw [List.flatten_cons, List.mem_append, ih]
        rw [insertSet_mem]
        simp only [List.not_mem_nil, List.mem_cons]
        tauto
      · rw [if_neg hc, ih]
        rw [insertSet_mem]
        simp only [List.mem_cons]
        tauto
    · rw [strippedIds, if_neg hu]
      have hbool : (!pyStarts ("umu-".toList) f) = true := by
        cases hpy : pyStarts ("umu-".toList) f
        · rfl
        · exact absurd hpy hu
      simp only [batchGo, hbool, if_true]
      exact ih appids count x

/-- When stripping is injective over the listing (no two entries collapse to
the same id), the yielded batches are pairwise disjoint. -/
theorem batchGo_pairwise (size : Nat) (files : List Str) :
    ∀ appids count, (appids ++ strippedIds files).Nodup →
      (batchGo size files appids count).Pairwise (fun b₁ b₂ => ∀ x ∈ b₁, x ∉ b₂) := by
  induction files with
  | nil =>
    intro appids count _
    simp [batchGo]
  | cons f fs ih =>
    intro appids count h
    by_cases hu : pyStarts ("umu-".toList) f = true
    · rw [strippedIds, if_pos hu] at h
      have hnd := List.nodup_append.mp h
      have hid : stripId f ∉ appids := fun hmem => hnd.2.2 hmem (List.mem_cons_self _ _)
      have hins : insertSet (stripId f) appids = appids ++ [stripId f] := by
        unfold insertSet
        rw [if_neg hid]
      simp only [batchGo, hu, Bool.not_true, Bool.false_eq_true, if_false]
      by_cases hc : count = size
      · rw [if_pos hc]
        rw [List.pairwise_cons]
        constructor
        · intro b hb x hx hxb
          have hxj : x ∈ (batchGo size fs [] 0).flatten := List.mem_flatten.mpr ⟨b, hb, hxb⟩
          have hxs : x ∈ strippedIds fs := by
            have hm := (batchGo_flatten_mem size fs [] 0 x).mp hxj
            simpa using hm
          rw [hins, List.mem_append] at hx
          rcases hx with hx | hx
          · exact hnd.2.2 hx (List.mem_cons_of_mem _ hxs)
          · have hxeq : x = stripId f := by simpa using hx
            rw [hxeq] at hxs
            exact (List.nodup_cons.mp hnd.2.1).1 hxs
        · apply ih [] 0
          simpa using (List.nodup_cons.mp hnd.2.1).2
      · rw [if_neg hc]
        apply ih
        rw [hins, List.append_assoc, List.singleton_append]
        exact h
    · rw [strippedIds, if_neg hu] at h
      have hbool : (!pyStarts ("umu-".toList) f) = true := by
        cases hpy : pyStarts ("umu-".toList) f
        · rfl
        · exact absurd hpy hu
      simp only [batchGo, hbool, if_true]
      exact ih appids count h

/-- The filename loop either passes every module or fails at the first
offending one, with the branch-ordered error. -/
theorem checkFilenamesLoop_char (l : List FixFile) :
    checkFilenamesLoop l =
      match l.find? (fun f => !fileOk f) with
      | none => Except.ok ()
      | some f => Except.error (firstOffense f) := by
  induction l with
  | nil => rfl
  | cons f fs ih =>
    by_cases hok : fileOk f = true
    · have hfind : List.find? (fun g => !fileOk g) (f :: fs)
          = List.find? (fun g => !fileOk g) fs := by
        apply List.find?_cons_of_neg
        simp [hok]
      rw [hfind, ← ih]
      have hok' := hok
      unfold fileOk at hok'
      obtain ⟨hex, hrule⟩ := Bool.and_eq_true_iff.mp hok'
      simp only [checkFilenamesLoop, hex, Bool.not_true, Bool.false_eq_true, if_false]
      by_cases hsteam : pyStarts ("gamefixes-steam".toList) f.dir = true
      · rw [if_pos hsteam] at hrule
        have h2 : (pyStarts ("gamefixes-steam".toList) f.dir
            && !pyIsNumeric (pathStem f.name)) = false := by
          rw [hsteam, hrule]
          simp
        have h3 : ((!pyStarts ("gamefixes-steam".toList) f.dir)
            && !pyStarts ("umu-".toList) f.name) = false := by
          rw [hsteam]
          simp
        simp only [h2, h3, Bool.false_eq_true, if_false]
      · have hsf : pyStarts ("gamefixes-steam".toList) f.dir = false := by
          cases hpy : pyStarts ("gamefixes-steam".toList) f.dir
          · rfl
          · exact absurd hpy hsteam
        rw [if_neg hsteam] at hrule
        have h2 : (pyStarts ("gamefixes-steam".toList) f.dir
            && !pyIsNumeric (pathStem f.name)) = false := by
          rw [hsf]
          simp
        have h3 : ((!pyStarts ("gamefixes-steam".toList) f.dir)
            && !pyStarts ("umu-".toList) f.name) = false := by
          rw [hsf, hrule]
          simp
        simp only [h2, h3, Bool.false_eq_true, if_false]
    · have hokf : fileOk f = false := by
        cases hf : fileOk f
        · rfl
        · exact absurd hf hok
      have hfind : List.find? (fun g => !fileOk g) (f :: fs) = some f := by
        apply List.find?_cons_of_pos
        simp [hokf]
      rw [hfind]
      by_cases hex : f.pathExists = true
      · have hrule : (if pyStarts ("gamefixes-steam".toList) f.dir then
            pyIsNumeric (pathStem f.name) else pyStarts ("umu-".toList) f.name) = false := by
          have hh := hokf
          unfold fileOk at hh
          rw [hex] at hh
          simpa using hh
        by_cases hsteam : pyStarts ("gamefixes-steam".toList) f.dir = true
        · rw [if_pos hsteam] at hrule
          simp at hsteam hrule
          simp [checkFilenamesLoop, firstOffense, hex, hsteam, hrule]
        · have hsf : pyStarts ("gamefixes-steam".toList) f.dir = false := by
            cases hpy : pyStarts ("gamefixes-steam".toList) f.dir
            · rfl
            · exact absurd hpy hsteam
          rw [if_neg hsteam] at hrule
          simp at hsf hrule
          simp [checkFilenamesLoop, firstOffense, hex, hsf, hrule]
      · have hexf : f.pathExists = false := by
          cases hp : f.pathExists
          · rfl
          · exact absurd hp hex
        simp [checkFilenamesLoop, firstOffense, hexf]

/-- C10: GOG id matching is exact string equality on canonical decimal forms:
a catalog item removes a candidate only when `str(item['id'])` equals the
filename suffix character for character (so candidate "01234" is never
matched by catalog id 1234), and an umu-database entry matches only after
stripping a literal leading "umu-" from its `umu_id` field. -/
theorem c10_exact_string_matching :
    (∀ items appids c, c ∈ appids → c ∉ gogCatalogPass items appids →
      ∃ i ∈ items, strOfNat i = c)
    ∧ gogCatalogPass [1234] [("01234".toList)] = [("01234".toList)]
    ∧ (∀ items appids c, c ∈ appids → c ∉ gogUmuPass items appids →
      ∃ u ∈ items, removePre ("umu-".toList) u = c)
    ∧ gogUmuPass [("umu-42".toList)] [("42".toList)] = [] :=
  ⟨fun items appids c => gogCatalogPass_removed items appids c, by decide,
   fun items appids c => gogUmuPass_removed items appids c, by decide⟩

/-- Witness for C10's theorem at a concrete input: candidate "5" is in the
working set, is removed by catalog item 5, and the theorem then produces the
matching item. -/
theorem c10_exact_string_matching_witness :
    (strOfNat 5 ∈ [strOfNat 5]) ∧ strOfNat 5 ∉ gogCatalogPass [5] [strOfNat 5]
    ∧ ∃ i ∈ [(5 : Nat)], strOfNat i = strOfNat 5 :=
  ⟨by decide, by decide,
   c10_exact_string_matching.1 [5] [strOfNat 5] (strOfNat 5) (by decide) (by decide)⟩

/-- C5: a Steam candidate id cited by a validation error of
`check_steamfixes` is never a member of the fixed whitelist, whatever the
directory contents, catalog and fallback responses. -/
theorem c5_whitelist_never_fails (names : List Str) (catalog : List Nat)
    (resp : Nat → Except Unit (List Event)) (a : Nat)
    (h : (check_steamfixes names catalog resp).result
      = Except.error (CheckErr.invalidSteamId a)) :
    a ∉ whitelist_steam := by
  unfold check_steamfixes check_steamfixesW at h
  split at h
  · exact steamFinalW_error_not_mem _ _ a h
  · split at h
    · have h' : Except.error CheckErr.netOrParse
          = Except.error (CheckErr.invalidSteamId a) := h
      injection h' with h2
      exact CheckErr.noConfusion h2
    · exact steamFinalW_error_not_mem _ _ a h

/-- Witness for C5's theorem: a run failing on the non-whitelisted id 1. -/
theorem c5_whitelist_never_fails_witness :
    (check_steamfixes [("1.py".toList)] [] (fun _ => Except.ok [])).result
        = Except.error (CheckErr.invalidSteamId 1)
    ∧ (1 : Nat) ∉ whitelist_steam :=
  ⟨by decide, c5_whitelist_never_fails [("1.py".toList)] [] (fun _ => Except.ok []) 1 (by decide)⟩

/-- C4 counterexample: with two unresolved non-whitelisted Steam ids 1 and 2
(catalog empty, fallback reporting nothing), the raised error cites only id
1, not the full remaining set, refuting the claim that the message
enumerates all remaining unresolved ids of the platform. -/
theorem c4_steam_first_only_counterexample :
    (check_steamfixes [("1.py".toList), ("2.py".toList)] [] (fun _ => Except.ok [])).result
        = Except.error (CheckErr.invalidSteamId 1)
    ∧ steamFallbackLoop (fun _ => Except.ok [])
        (steamRemaining [("1.py".toList), ("2.py".toList)] [])
        (steamRemaining [("1.py".toList), ("2.py".toList)] []) = Except.ok [1, 2]
    ∧ (2 : Nat) ∉ whitelist_steam
    ∧ CheckErr.invalidSteamId 1 ≠ CheckErr.invalidSteamId 2 :=
  ⟨by decide, by decide, by decide, by decide⟩

/-- C4 amended: the GOG failure message carries the entire remaining set,
while the Steam failure cites exactly the first remaining id (in iteration
order) outside the whitelist. -/
theorem c4_error_enumeration :
    (∀ rem : List Str, rem ≠ [] → gogFinal rem = Except.error (CheckErr.invalidGogIds rem))
    ∧ (∀ (wl rem : List Nat), steamFinalW wl rem =
        match rem.find? (fun a => !(decide (a ∈ wl))) with
        | none => Except.ok ()
        | some a => Except.error (CheckErr.invalidSteamId a)) := by
  constructor
  · intro rem h
    cases rem with
    | nil => exact absurd rfl h
    | cons a l => rfl
  · intro wl rem
    induction rem with
    | nil => rfl
    | cons a rest ih =>
      by_cases ha : a ∈ wl
      · have hfind : List.find? (fun b => !(decide (b ∈ wl))) (a :: rest)
            = List.find? (fun b => !(decide (b ∈ wl))) rest := by
          apply List.find?_cons_of_neg
          simp [ha]
        rw [steamFinalW, if_pos ha, ih, hfind]
      · have hfind : List.find? (fun b => !(decide (b ∈ wl))) (a :: rest) = some a := by
          apply List.find?_cons_of_pos
          simp [ha]
        rw [steamFinalW, if_neg ha, hfind]

/-- Witness for C4's amended theorem: a nonempty GOG remainder is reported
in full. -/
theorem c4_error_enumeration_witness :
    ([("7".toList)] : List Str) ≠ []
    ∧ gogFinal [("7".toList)] = Except.error (CheckErr.invalidGogIds [("7".toList)]) :=
  ⟨by decide, c4_error_enumeration.1 [("7".toList)] (by decide)⟩

/-- C3 counterexample: a fallback response that fails to parse makes
`check_steamfixes` raise with the persistent connection opened but never
closed — `conn.close()` is not within a `finally`, refuting closure on every
exit path. -/
theorem c3_connection_leak_counterexample :
    (check_steamfixes [("1.py".toList)] [] (fun _ => Except.error ())).connOpened = true
    ∧ (check_steamfixes [("1.py".toList)] [] (fun _ => Except.error ())).connClosed = false :=
  ⟨by decide, by decide⟩

/-- C3 amended: whenever the per-id (resp. umu-database) queries raise no
network or parse exception, the persistent connection is closed exactly when
it was opened — in particular it is closed before the final `ValueError` is
raised; only an exception escaping the query loop skips the close. -/
theorem c3_close_on_clean_paths :
    (∀ (names : List Str) (catalog : List Nat) (resp : Nat → Except Unit (List Event)),
      (∀ a, ∃ evs, resp a = Except.ok evs) →
      (check_steamfixes names catalog resp).connClosed
        = (check_steamfixes names catalog resp).connOpened)
    ∧ (∀ (gn sn : List Str) (gcat : List Str → List Nat) (items : List Str),
      (check_gogfixes gn sn gcat (Except.ok items)).connClosed
        = (check_gogfixes gn sn gcat (Except.ok items)).connOpened) := by
  constructor
  · intro names catalog resp hres
    unfold check_steamfixes check_steamfixesW
    split
    · rfl
    · obtain ⟨l, hl⟩ := steamFallbackLoop_isOk resp hres
        (steamRemaining names catalog) (steamRemaining names catalog)
      rw [hl]
  · intro gn sn gcat items
    unfold check_gogfixes
    split
    · rfl
    · rfl

/-- Witness for C3's amended theorem: with parsing fallback responses the
connection state is consistent on a concrete failing-validation run. -/
theorem c3_close_on_clean_paths_witness :
    (∀ a : Nat, ∃ evs, (fun _ : Nat => (Except.ok [] : Except Unit (List Event))) a
        = Except.ok evs)
    ∧ (check_steamfixes [("1.py".toList)] [] (fun _ => Except.ok [])).connClosed
        = (check_steamfixes [("1.py".toList)] [] (fun _ => Except.ok [])).connOpened :=
  ⟨fun _ => ⟨[], rfl⟩, c3_close_on_clean_paths.1 _ _ _ (fun _ => ⟨[], rfl⟩)⟩

/-- C6 counterexample: the file `gamefixes-gog/default.py.py` is skipped by
the code's *prefix*-based ignore test although its name is none of the three
ignored names, so `check_filenames` succeeds where the claim's exact-name
reading demands a missing-`umu-` failure. -/
theorem c6_exact_name_exclusion_counterexample :
    check_filenames [⟨("gamefixes-gog".toList), ("default.py.py".toList), false, true⟩]
        = Except.ok ()
    ∧ claimedFilenamesOk [⟨("gamefixes-gog".toList), ("default.py.py".toList), false, true⟩]
        = false :=
  ⟨by decide, by decide⟩

/-- C6 amended: `check_filenames` succeeds iff every file matching
`gamefixes-*/*.py` whose name does not *start with* one of `__init__.py`,
`default.py`, `winetricks-gui.py` exists and satisfies its platform's naming
rule; otherwise it fails naming the first offending file with the
branch-ordered error. -/
theorem c6_filenames_characterization (t : List FixFile) :
    (check_filenames t = Except.ok () ↔ (gamefixes t).all fileOk = true)
    ∧ check_filenames t =
      (match (gamefixes t).find? (fun f => !fileOk f) with
       | none => Except.ok ()
       | some f => Except.error (firstOffense f)) := by
  have hc := checkFilenamesLoop_char (gamefixes t)
  constructor
  · rw [check_filenames, hc]
    cases hfind : (gamefixes t).find? (fun f => !fileOk f) with
    | none =>
      constructor
      · intro _
        rw [List.all_eq_true]
        intro x hx
        have hnone := List.find?_eq_none.mp hfind x hx
        simpa using hnone
      · intro _
        rfl
    | some f =>
      constructor
      · intro hcontra
        simp at hcontra
      · intro hall
        have hmem := List.mem_of_find?_eq_some hfind
        have hp := List.find?_some hfind
        rw [List.all_eq_true] at hall
        have hfok := hall f hmem
        simp [hfok] at hp
  · rw [check_filenames, hc]

/-- C7: a failure in `check_links` or `check_filenames` is the run's result
with no network request made; in particular a broken symbolic link among the
scanned modules aborts the run inside `check_links` before any of the three
endpoints is contacted. -/
theorem c7_fail_fast_order (t : List FixFile) (catalog : List Nat)
    (resp : Nat → Except Unit (List Event)) (gcat : List Str → List Nat)
    (umuResp : Except Unit (List Str)) :
    (∀ e, check_links t = Except.error e →
      runAll t catalog resp gcat umuResp = ⟨Except.error e, []⟩)
    ∧ (∀ e, check_links t = Except.ok () → check_filenames t = Except.error e →
      runAll t catalog resp gcat umuResp = ⟨Except.error e, []⟩)
    ∧ ((∃ f ∈ gamefixes t, f.isSymlink = true ∧ f.pathExists = false) →
      ∃ f, runAll t catalog resp gcat umuResp = ⟨Except.error (CheckErr.brokenLink f), []⟩) := by
  refine ⟨?_, ?_, ?_⟩
  · intro e h
    unfold runAll runAllW
    rw [h]
  · intro e h1 h2
    unfold runAll runAllW
    rw [h1, h2]
  · intro hex
    obtain ⟨f, hloop, hs, hp⟩ := checkLinksLoop_broken (gamefixes t) hex
    refine ⟨f, ?_⟩
    unfold runAll runAllW
    rw [show check_links t = Except.error (CheckErr.brokenLink f) from hloop]

/-- Witness for C7's theorem: the broken-link tree aborts with a broken-link
error and an empty network trace. -/
theorem c7_fail_fast_order_witness :
    ∃ f, runAll brokenLinkTree [] (fun _ => Except.ok []) (fun _ => []) (Except.ok [])
        = ⟨Except.error (CheckErr.brokenLink f), []⟩ :=
  (c7_fail_fast_order brokenLinkTree [] (fun _ => Except.ok []) (fun _ => []) (Except.ok [])).2.2
    (by decide)

/-- C8: a full run leaves the module-level environment (the whitelist set,
the only module-level mutable object the checks read) unchanged, and an
immediately repeated run over the same tree and the same upstream responses
returns the identical result: the outcome is a deterministic function of the
inputs with no hidden state between runs. -/
theorem c8_idempotent_runs (g : Globals) (t : List FixFile) (catalog : List Nat)
    (resp : Nat → Except Unit (List Event)) (gcat : List Str → List Nat)
    (umuResp : Except Unit (List Str)) :
    (runAllG g t catalog resp gcat umuResp).2 = g
    ∧ (runAllG ((runAllG g t catalog resp gcat umuResp).2) t catalog resp gcat umuResp).1
        = (runAllG g t catalog resp gcat umuResp).1 :=
  ⟨rfl, rfl⟩

/-- C9 amended: `_batch_generator` always yields at least one set, the union
of the yielded sets is exactly the set of `umu-` file names with the `umu-`
and `.py` affixes stripped, and — provided no two directory entries strip to
the same id (in particular when all `umu-` entries are distinct `.py` files)
— the yielded sets are pairwise disjoint. -/
theorem c9_batch_invariants (files : List Str) :
    _batch_generator files 50 ≠ []
    ∧ (∀ x, x ∈ (_batch_generator files 50).flatten ↔ x ∈ strippedIds files)
    ∧ ((strippedIds files).Nodup →
      (_batch_generator files 50).Pairwise (fun b₁ b₂ => ∀ x ∈ b₁, x ∉ b₂)) := by
  refine ⟨batchGo_ne_nil 50 files [] 0, ?_, ?_⟩
  · intro x
    have h := batchGo_flatten_mem 50 files [] 0 x
    unfold _batch_generator
    rw [h]
    simp
  · intro h
    unfold _batch_generator
    exact batchGo_pairwise 50 files [] 0 (by simpa using h)

/-- Witness for C9's amended theorem on a two-file directory with distinct
stripped ids. -/
theorem c9_batch_invariants_witness :
    (strippedIds [("umu-1.py".toList), ("umu-2.py".toList)]).Nodup
    ∧ (_batch_generator [("umu-1.py".toList), ("umu-2.py".toList)] 50).Pairwise
        (fun b₁ b₂ => ∀ x ∈ b₁, x ∉ b₂) :=
  ⟨by decide, (c9_batch_invariants [("umu-1.py".toList), ("umu-2.py".toList)]).2.2 (by decide)⟩

set_option maxRecDepth 10000 in
/-- C9 counterexample: with 52 `umu-` entries where `umu-0.py` and the
extension-less `umu-0` both strip to id "0", the first (51-element) and
second batches share "0", so the yielded sets are not pairwise disjoint as
the claim states. -/
theorem c9_disjointness_counterexample :
    ¬ (_batch_generator cfiles 50).Pairwise (fun b₁ b₂ => ∀ x ∈ b₁, x ∉ b₂) := by
  intro h
  have h01 := List.pairwise_iff_get.mp h ⟨0, by decide⟩ ⟨1, by decide⟩ (by decide)
  have m0 : ("0".toList) ∈ (_batch_generator cfiles 50).get ⟨0, by decide⟩ := by decide
  have m1 : ("0".toList) ∈ (_batch_generator cfiles 50).get ⟨1, by decide⟩ := by decide
  exact h01 ("0".toList) m0 m1

set_option maxRecDepth 10000 in
/-- C1 (code-bug evidence): with 51 `umu-` files whose ids none of the GOG
catalog, the Steam directory or the umu database can resolve, the batch loop
rebinds `appids` to the final (empty) batch, so every unresolved id of the
first batch — "0" among them, a yielded candidate — is silently dropped and
`check_gogfixes` succeeds instead of checking those ids against the fallback
sources and reporting them. -/
theorem c1_batch_remainders_dropped :
    (check_gogfixes files51 [] (fun _ => []) (Except.ok [])).result = Except.ok ()
    ∧ ("0".toList) ∈ (_batch_generator files51 50).getD 0 []
    ∧ ("0".toList) ∈ strippedIds files51 :=
  ⟨by decide, by decide, by decide⟩

set_option maxRecDepth 10000 in
/-- C2 (code-bug evidence): with 51 `umu-` files the first yielded batch
holds 51 ids — the increment is skipped on the yielding pass, so the cap is
off by one — and that 51-id batch is sent in a single GOG catalog request. -/
theorem c2_batch_size_exceeded :
    (_batch_generator files51 50).map List.length = [51, 0]
    ∧ NetCall.gogCatalog ((_batch_generator files51 50).getD 0 [])
        ∈ (check_gogfixes files51 [] (fun _ => []) (Except.ok [])).calls :=
  ⟨by decide, by decide⟩
